import Mathlib

/-!
Verification of `movie-maker.py`: a shallow embedding of the audio
windowing and per-frame rendering logic, with theorems about the
properties the design document states.

Floating-point timestamps and samples are modelled as rationals;
machine integers as `ℤ`/`ℕ`.  External collaborators (librosa,
matplotlib rasterization, PIL decoding, moviepy encoding) are modelled
as abstract inputs: an arbitrary image or an error for the per-frame
rasterizer, and `Except`-valued steps for the whole-run pipeline.
-/

/-- Truncation toward zero on rationals, modelling the Python built-in
`int()` applied to a float. -/
def truncQ (q : ℚ) : ℤ := if 0 ≤ q then ⌊q⌋ else ⌈q⌉

/-- `window_size = int(sample_rate * 0.5)` — `sample_rate * 0.5` is exact,
so this is floor division by 2. -/
def window_size (sample_rate : ℕ) : ℕ := sample_rate / 2

/-- `center_idx = int(t * sample_rate)`. -/
def center_idx (t : ℚ) (sample_rate : ℕ) : ℤ := truncQ (t * sample_rate)

/-- `start_idx = max(0, center_idx - window_size//2)`. -/
def start_idx (t : ℚ) (sample_rate : ℕ) : ℤ :=
  max 0 (center_idx t sample_rate - (window_size sample_rate : ℤ) / 2)

/-- `end_idx = min(len(audio_data), start_idx + window_size)`. -/
def end_idx (audio_data : List ℚ) (t : ℚ) (sample_rate : ℕ) : ℤ :=
  min (audio_data.length : ℤ) (start_idx t sample_rate + window_size sample_rate)

/-- The two-sample all-zero placeholder `np.array([0, 0])`. -/
def zeroPair : List ℚ := [0, 0]

/-- The contiguous slice `audio_data[start_idx:end_idx]` (both bounds are
nonnegative here, so Python slicing is drop-then-take). -/
def raw_segment (audio_data : List ℚ) (t : ℚ) (sample_rate : ℕ) : List ℚ :=
  (audio_data.drop (start_idx t sample_rate).toNat).take
    ((end_idx audio_data t sample_rate).toNat - (start_idx t sample_rate).toNat)

/-- The Audio Windower: lines 46–61 of `make_frame`.  Returns the slice
`audio_data[start_idx:end_idx]`, substituting `[0, 0]` when
`end_idx <= start_idx` or when the slice has fewer than 2 samples. -/
def audio_segment (audio_data : List ℚ) (t : ℚ) (sample_rate : ℕ) : List ℚ :=
  let seg :=
    if end_idx audio_data t sample_rate ≤ start_idx t sample_rate then zeroPair
    else raw_segment audio_data t sample_rate
  if seg.length < 2 then zeroPair else seg

/-- Evaluation helper: truncation of a nonnegative rational lying in `[n, n+1)`. -/
lemma truncQ_eq_of_nonneg (q : ℚ) (n : ℤ) (h0 : 0 ≤ q) (h1 : (n : ℚ) ≤ q)
    (h2 : q < (n : ℚ) + 1) : truncQ q = n := by
  rw [truncQ, if_pos h0]
  exact Int.floor_eq_iff.mpr ⟨h1, h2⟩

/-- Evaluation helper: truncation of a negative rational lying in `(n-1, n]`. -/
lemma truncQ_eq_of_neg (q : ℚ) (n : ℤ) (h0 : ¬ 0 ≤ q) (h1 : (n : ℚ) - 1 < q)
    (h2 : q ≤ (n : ℚ)) : truncQ q = n := by
  rw [truncQ, if_neg h0]
  exact Int.ceil_eq_iff.mpr ⟨h1, h2⟩

/-! ### Image model

A decoded raster image: explicit dimensions plus flattened pixel bytes in
row-major `(row, column, channel)` order, as `np.array` of a PIL image. -/

structure Image where
  width : ℕ
  height : ℕ
  channels : ℕ
  data : List ℕ

/-- Read one byte of flattened pixel data (0 outside the buffer). -/
def getByte (img : Image) (k : ℕ) : ℕ := img.data.getD k 0

/-- Model of `pil_img.resize((w, h), Image.LANCZOS)`: the output raster has
exactly `h * w * channels` bytes; the resampled values are modelled
nearest-neighbour (the external filter choice does not affect any claim). -/
def resize (img : Image) (w h : ℕ) : Image :=
  { width := w, height := h, channels := img.channels,
    data := (List.range (h * w * img.channels)).map (fun k =>
      let c := k % img.channels
      let x := k / img.channels % w
      let y := k / img.channels / w
      getByte img ((y * img.height / h * img.width + x * img.width / w) * img.channels + c)) }

/-- Model of `pil_img.convert('RGB')`: keeps the first three channels of
every pixel, yielding a 3-channel raster of the same width and height. -/
def convertRGB (img : Image) : Image :=
  { width := img.width, height := img.height, channels := 3,
    data := (List.range (img.height * img.width * 3)).map (fun k =>
      getByte img (k / 3 * img.channels + k % 3)) }

/-- `np.zeros((resolution, resolution, 3), dtype=np.uint8)`. -/
def zeroImage (resolution : ℕ) : Image :=
  { width := resolution, height := resolution, channels := 3,
    data := List.replicate (resolution * resolution * 3) 0 }

/-! ### Plot model

The matplotlib calls issued for one frame, recorded as data: which plotting
primitive runs and which fixed y-axis limits are set. -/

inductive PlotCmd where
  | fill_between (x y1 y2 : List ℚ) (color : String)
  | line (x y : List ℚ) (color : String) (linewidth : ℕ)
  | empty
deriving DecidableEq

structure PlotSpec where
  cmd : PlotCmd
  ylim : Option (ℚ × ℚ)
deriving DecidableEq

/-- `np.linspace(a, b, n)`: `n` evenly spaced values from `a` to `b`
inclusive (`[a]` for `n = 1`, empty for `n = 0`). -/
def linspace (a b : ℚ) (n : ℕ) : List ℚ :=
  if n = 0 then []
  else if n = 1 then [a]
  else (List.range n).map (fun i => a + (b - a) * i / (n - 1))

/-- Lines 70–87 of `make_frame`: the x-axis normalization and the
style-specific plot commands, including the fixed `plt.ylim(-0.8, 0.8)`
in each of the three style branches (`0.8 = 4/5`). -/
def plot_spec (waveform_type waveform_color : String) (seg : List ℚ) : PlotSpec :=
  let x := linspace 0 1 seg.length
  if waveform_type = "simple" then
    { cmd := PlotCmd.fill_between x seg (List.replicate seg.length 0) waveform_color,
      ylim := some (-(4/5), 4/5) }
  else if waveform_type = "mirror" then
    { cmd := PlotCmd.fill_between x seg (seg.map (fun v => -v)) waveform_color,
      ylim := some (-(4/5), 4/5) }
  else if waveform_type = "line" then
    { cmd := PlotCmd.line x seg waveform_color 4,
      ylim := some (-(4/5), 4/5) }
  else { cmd := PlotCmd.empty, ylim := none }

/-! ### Per-frame rendering -/

/-- Everything `make_frame` closes over: the loaded signal, the fixed render
parameters, and the external rasterization chain
(figure → `savefig` → `Image.open`), which either yields a decoded PNG
raster of some size or raises. -/
structure RenderCtx where
  audio_data : List ℚ
  sample_rate : ℕ
  waveform_type : String
  resolution : ℕ
  waveform_color : String
  raster : PlotSpec → Except String Image

/-- The message printed by the `except` branch of `make_frame`. -/
def errLine (t : ℚ) (e : String) : String :=
  "Error in make_frame at t=" ++ toString t ++ ": " ++ e

/-- `make_frame(t)`: windowing, plotting, rasterizing, resizing to the
target resolution and converting to RGB; any exception is caught and
replaced by a logged all-zero frame.  Returns the frame and the printed
log lines. -/
def make_frame (ctx : RenderCtx) (t : ℚ) : Image × List String :=
  let seg := audio_segment ctx.audio_data t ctx.sample_rate
  match ctx.raster (plot_spec ctx.waveform_type ctx.waveform_color seg) with
  | Except.ok img => (convertRGB (resize img ctx.resolution ctx.resolution), [])
  | Except.error e => (zeroImage ctx.resolution, [errLine t e])

/-- Sequential frame generation, one frame per requested timestamp, in
order, exactly as the external driver invokes `make_frame`. -/
def render_session (ctx : RenderCtx) : List ℚ → List (Image × List String)
  | [] => []
  | t :: ts => make_frame ctx t :: render_session ctx ts

/-! ### Whole-run pipeline -/

/-- The external steps of `create_waveform_video`, each of which may raise:
librosa decoding, moviepy audio and image loading, and final encoding;
plus the measured elapsed time. -/
structure RunEnv where
  load_audio : Except String (List ℚ × ℕ)
  audio_clip_duration : Except String ℚ
  image_clip : Except String Unit
  write_video : Except String Unit
  elapsed : ℚ

/-- The two lines printed by the `except` branch: the error message and the
stack trace from `traceback.print_exc()`. -/
def fail_logs (e : String) : List String :=
  ["Error creating video: " ++ e, "Traceback (most recent call last)"]

/-- The first exception the pipeline raises, in program order, if any. -/
def first_error (env : RunEnv) : Option String :=
  match env.load_audio with
  | Except.error e => some e
  | Except.ok _ =>
    match env.audio_clip_duration with
    | Except.error e => some e
    | Except.ok _ =>
      match env.image_clip with
      | Except.error e => some e
      | Except.ok _ =>
        match env.write_video with
        | Except.error e => some e
        | Except.ok _ => none

/-- `create_waveform_video`: the top-level command body.  Returns the
Python return value (`True` on success, `False` from the `except` branch)
together with everything printed, in order. -/
def create_waveform_video (env : RunEnv)
    (audio_file image_file waveform waveform_color output : String)
    (resolution : ℕ) : Bool × List String :=
  let header :=
    ["Processing audio: " ++ audio_file,
     "Processing image: " ++ image_file,
     "Waveform type: " ++ waveform,
     "Waveform color: " ++ waveform_color,
     "Resolution: " ++ toString resolution ++ "x" ++ toString resolution,
     "Output will be saved to: " ++ output,
     "Loading audio with librosa..."]
  match env.load_audio with
  | Except.error e => (false, header ++ fail_logs e)
  | Except.ok ysr =>
    let l1 := header ++
      ["Audio loaded: " ++ toString ysr.1.length ++ " samples, " ++
        toString ysr.2 ++ "Hz sample rate"]
    match env.audio_clip_duration with
    | Except.error e => (false, l1 ++ fail_logs e)
    | Except.ok d =>
      let l2 := l1 ++ ["Audio duration: " ++ toString d ++ " seconds"]
      match env.image_clip with
      | Except.error e => (false, l2 ++ fail_logs e)
      | Except.ok _ =>
        let l3 := l2 ++
          ["Image prepared",
           "Generating waveform animation...",
           "Waveform animation created",
           "Video composition complete",
           "Writing output to " ++ output ++ "..."]
        match env.write_video with
        | Except.error e => (false, l3 ++ fail_logs e)
        | Except.ok _ =>
          (true, l3 ++
            ["Video successfully created at " ++ output,
             "Total processing time: " ++ toString env.elapsed ++ " seconds"])

/-! ## Shared helper lemmas -/

lemma start_idx_nonneg (t : ℚ) (sample_rate : ℕ) : 0 ≤ start_idx t sample_rate :=
  le_max_left _ _

lemma end_idx_le_length (audio_data : List ℚ) (t : ℚ) (sample_rate : ℕ) :
    end_idx audio_data t sample_rate ≤ (audio_data.length : ℤ) :=
  min_le_left _ _

lemma end_idx_le_start_add (audio_data : List ℚ) (t : ℚ) (sample_rate : ℕ) :
    end_idx audio_data t sample_rate
      ≤ start_idx t sample_rate + (window_size sample_rate : ℤ) :=
  min_le_right _ _

lemma center_idx_zero (sample_rate : ℕ) : center_idx 0 sample_rate = 0 := by
  rw [center_idx]
  exact truncQ_eq_of_nonneg _ 0 (by norm_num) (by norm_num) (by norm_num)

/-- The slice length, under the in-range bounds. -/
lemma raw_segment_length (audio_data : List ℚ) (t : ℚ) (sample_rate : ℕ) :
    (raw_segment audio_data t sample_rate).length
      = (end_idx audio_data t sample_rate).toNat - (start_idx t sample_rate).toNat := by
  have hs0 : 0 ≤ start_idx t sample_rate := start_idx_nonneg t sample_rate
  have hel : end_idx audio_data t sample_rate ≤ (audio_data.length : ℤ) :=
    end_idx_le_length audio_data t sample_rate
  rw [raw_segment, List.length_take, List.length_drop]
  omega

/-! ## C1 — the window center index -/

/-- **C1** (counterexample): at `t = 1.9` with `sample_rate = 1` the code
computes `int(t * sample_rate) = 1`, while the nearest integer
`round(t * sample_rate)` is `2`. -/
theorem center_idx_round_counterex :
    center_idx (19/10) 1 ≠ round ((19/10 : ℚ) * (1 : ℕ)) := by
  have h1 : center_idx (19/10) 1 = 1 := by
    rw [center_idx]
    exact truncQ_eq_of_nonneg _ 1 (by norm_num) (by norm_num) (by norm_num)
  have h2 : round ((19/10 : ℚ) * (1 : ℕ)) = 2 := by norm_num [round_eq]
  rw [h1, h2]
  decide

/-- **C1** (amended): for every timestamp `t ≥ 0` the window center index is
`int(t * sample_rate)`, the truncation = floor of `t * sample_rate` — the
integer at distance < 1 at or below it, not the nearest integer. -/
theorem center_idx_trunc_floor (t : ℚ) (sample_rate : ℕ) (h : 0 ≤ t) :
    center_idx t sample_rate = ⌊t * (sample_rate : ℚ)⌋ ∧
    (center_idx t sample_rate : ℚ) ≤ t * (sample_rate : ℚ) ∧
    t * (sample_rate : ℚ) - 1 < (center_idx t sample_rate : ℚ) := by
  have h0 : 0 ≤ t * (sample_rate : ℚ) := mul_nonneg h (by positivity)
  have hc : center_idx t sample_rate = ⌊t * (sample_rate : ℚ)⌋ := by
    rw [center_idx, truncQ, if_pos h0]
  refine ⟨hc, ?_, ?_⟩
  · rw [hc]; exact Int.floor_le _
  · rw [hc]; exact Int.sub_one_lt_floor _

/-- **C1** witness: the amended statement at `t = 1.9`, `sample_rate = 1`. -/
theorem center_idx_trunc_floor_witness :
    center_idx (19/10) 1 = ⌊(19/10 : ℚ) * ((1 : ℕ) : ℚ)⌋ :=
  (center_idx_trunc_floor (19/10) 1 (by norm_num)).1

/-! ## C2 — totality and out-of-range timestamps -/

/-- **C2** (counterexample): for the negative out-of-range timestamp
`t = -1` on the signal `[1,1,1,1]` at 4 samples/second, the windower does
not return the two-zero placeholder: it returns the clamped initial window
`[1,1]`. -/
theorem windower_neg_t_counterex :
    ((-1 : ℚ) < 0) ∧ audio_segment [1,1,1,1] (-1) 4 ≠ zeroPair := by
  have h : center_idx (-1) 4 = -4 := by
    rw [center_idx]
    exact truncQ_eq_of_neg _ (-4) (by norm_num) (by norm_num) (by norm_num)
  have heq : audio_segment [1,1,1,1] (-1) 4 = [1,1] := by
    simp [audio_segment, raw_segment, end_idx, start_idx, window_size, h, zeroPair]
  refine ⟨by norm_num, ?_⟩
  rw [heq]
  simp [zeroPair]

/-- **C2** (amended): the windower is total — the computed bounds are always
in range (`0 ≤ start_idx` and `end_idx ≤ signal_length`), so no slice access
can fail for any `t`, in `[0, audio_duration]` or not; and for `t` far
beyond the audio duration (`t * sample_rate` at or past
`signal_length + window_size/2`) it returns the two-zero placeholder.  For
negative `t` it degrades to the window clamped to the start of the signal,
which is the placeholder only when that window has fewer than 2 samples. -/
theorem windower_total_far_out (audio_data : List ℚ) (t : ℚ) (sample_rate : ℕ) :
    0 ≤ start_idx t sample_rate ∧
    end_idx audio_data t sample_rate ≤ (audio_data.length : ℤ) ∧
    ((((audio_data.length : ℤ) + (window_size sample_rate : ℤ) / 2 : ℤ) : ℚ)
        ≤ t * (sample_rate : ℚ) →
      audio_segment audio_data t sample_rate = zeroPair) ∧
    (t < 0 →
      start_idx t sample_rate = 0 ∧
      audio_segment audio_data t sample_rate =
        if (audio_data.take (window_size sample_rate)).length < 2 then zeroPair
        else audio_data.take (window_size sample_rate)) := by
  refine ⟨start_idx_nonneg t sample_rate, end_idx_le_length audio_data t sample_rate,
    ?_, ?_⟩
  · intro h
    have hws : 0 ≤ (window_size sample_rate : ℤ) / 2 :=
      Int.ediv_nonneg (by positivity) (by norm_num)
    have hB0 : (0 : ℤ) ≤ (audio_data.length : ℤ) + (window_size sample_rate : ℤ) / 2 := by
      have : (0 : ℤ) ≤ (audio_data.length : ℤ) := by positivity
      omega
    have h0 : 0 ≤ t * (sample_rate : ℚ) :=
      le_trans (by exact_mod_cast hB0) h
    have hc : center_idx t sample_rate = ⌊t * (sample_rate : ℚ)⌋ := by
      rw [center_idx, truncQ, if_pos h0]
    have hcB : (audio_data.length : ℤ) + (window_size sample_rate : ℤ) / 2
        ≤ center_idx t sample_rate := by
      rw [hc]
      exact Int.le_floor.mpr h
    have hstart : (audio_data.length : ℤ) ≤ start_idx t sample_rate := by
      have hx : (audio_data.length : ℤ)
          ≤ center_idx t sample_rate - (window_size sample_rate : ℤ) / 2 := by omega
      exact le_trans hx (le_max_right _ _)
    have hend : end_idx audio_data t sample_rate ≤ start_idx t sample_rate :=
      le_trans (min_le_left _ _) hstart
    simp only [audio_segment]
    rw [if_pos hend, ite_self]
  · intro ht
    have hws : 0 ≤ (window_size sample_rate : ℤ) / 2 :=
      Int.ediv_nonneg (by positivity) (by norm_num)
    have hc : center_idx t sample_rate ≤ 0 := by
      by_cases h0 : 0 ≤ t * (sample_rate : ℚ)
      · have hle0 : t * (sample_rate : ℚ) ≤ 0 :=
          mul_nonpos_iff.mpr (Or.inr ⟨le_of_lt ht, by positivity⟩)
        have heq : t * (sample_rate : ℚ) = 0 := le_antisymm hle0 h0
        rw [center_idx, truncQ, if_pos h0, heq]
        simp
      · rw [center_idx, truncQ, if_neg h0]
        exact Int.ceil_le.mpr (by push_cast; linarith [le_of_not_le h0])
    have hstart : start_idx t sample_rate = 0 := by
      rw [start_idx]
      exact max_eq_left (by omega)
    refine ⟨hstart, ?_⟩
    have hend : end_idx audio_data t sample_rate
        = min (audio_data.length : ℤ) (window_size sample_rate : ℤ) := by
      rw [end_idx, hstart, zero_add]
    have hraw : raw_segment audio_data t sample_rate
        = audio_data.take (window_size sample_rate) := by
      rw [raw_segment, hstart]
      simp only [Int.toNat_zero, List.drop_zero, Nat.sub_zero]
      rcases le_total ((audio_data.length : ℤ)) ((window_size sample_rate : ℤ)) with hl | hl
      · rw [hend, min_eq_left hl, Int.toNat_natCast, List.take_length,
          List.take_of_length_le (by exact_mod_cast hl)]
      · rw [hend, min_eq_right hl, Int.toNat_natCast]
    simp only [audio_segment]
    by_cases hle : end_idx audio_data t sample_rate ≤ start_idx t sample_rate
    · rw [if_pos hle, ite_self]
      have hmin : (audio_data.length : ℤ) ≤ 0 ∨ (window_size sample_rate : ℤ) ≤ 0 := by
        rw [hstart, hend] at hle
        exact min_le_iff.mp hle
      have hlen0 : (audio_data.take (window_size sample_rate)).length = 0 := by
        rw [List.length_take]
        rcases hmin with hm | hm
        · have hz : audio_data.length = 0 := by exact_mod_cast le_antisymm hm (by positivity)
          omega
        · have hz : window_size sample_rate = 0 := by exact_mod_cast le_antisymm hm (by positivity)
          omega
      rw [if_pos (by omega : (audio_data.take (window_size sample_rate)).length < 2)]
    · rw [if_neg hle, hraw]

/-- **C2** witness: a far-out timestamp (`t = 1` s on a half-second signal
at 4 samples/second) yields the placeholder, and the negative timestamp
`t = -1` on `[1,1,1,1]` at 4 samples/second clamps the start to 0 and
returns the initial window `take window_size`, here `[1,1]`. -/
theorem windower_total_far_out_witness :
    audio_segment [1,1] 1 4 = zeroPair ∧
    start_idx (-1) 4 = 0 ∧
    audio_segment [1,1,1,1] (-1) 4 = [1,1,1,1].take (window_size 4) := by
  refine ⟨(windower_total_far_out [1,1] 1 4).2.2.1 (by norm_num [window_size]),
    ((windower_total_far_out [1,1,1,1] (-1) 4).2.2.2 (by norm_num)).1, ?_⟩
  have h := ((windower_total_far_out [1,1,1,1] (-1) 4).2.2.2 (by norm_num)).2
  rw [h]
  decide

/-! ## C3 — window bound formulas and clamping -/

/-- **C3**: the window bounds are
`start = max(0, center_idx - window_size//2)` and
`end = min(signal_length, start + window_size)`; when
`t * sample_rate < window_size/2` the start clamps to 0, and when
`start + window_size` overshoots the signal the end clamps to the signal
length. -/
theorem window_bounds_clamped (audio_data : List ℚ) (t : ℚ) (sample_rate : ℕ) :
    start_idx t sample_rate
      = max 0 (center_idx t sample_rate - (window_size sample_rate : ℤ) / 2) ∧
    end_idx audio_data t sample_rate
      = min (audio_data.length : ℤ) (start_idx t sample_rate + (window_size sample_rate : ℤ)) ∧
    (t * (sample_rate : ℚ) < (window_size sample_rate : ℚ) / 2 →
      start_idx t sample_rate = 0) ∧
    ((audio_data.length : ℤ) < start_idx t sample_rate + (window_size sample_rate : ℤ) →
      end_idx audio_data t sample_rate = (audio_data.length : ℤ)) := by
  refine ⟨rfl, rfl, ?_, ?_⟩
  · intro h
    have hc : center_idx t sample_rate ≤ (window_size sample_rate : ℤ) / 2 := by
      by_cases h0 : 0 ≤ t * (sample_rate : ℚ)
      · have hfl : center_idx t sample_rate = ⌊t * (sample_rate : ℚ)⌋ := by
          rw [center_idx, truncQ, if_pos h0]
        have hlt : ((center_idx t sample_rate : ℤ) : ℚ) < (window_size sample_rate : ℚ) / 2 :=
          lt_of_le_of_lt (by rw [hfl]; exact Int.floor_le _) h
        have h2 : 2 * center_idx t sample_rate < (window_size sample_rate : ℤ) := by
          have h3 := (lt_div_iff₀ (by norm_num : (0:ℚ) < 2)).mp hlt
          have h4 : ((2 * center_idx t sample_rate : ℤ) : ℚ)
              < ((window_size sample_rate : ℤ) : ℚ) := by push_cast; linarith
          exact_mod_cast h4
        omega
      · have hfl : center_idx t sample_rate = ⌈t * (sample_rate : ℚ)⌉ := by
          rw [center_idx, truncQ, if_neg h0]
        have hcl : center_idx t sample_rate ≤ 0 := by
          rw [hfl]
          exact Int.ceil_le.mpr (by push_cast; linarith [le_of_not_le h0])
        have hws : 0 ≤ (window_size sample_rate : ℤ) / 2 :=
          Int.ediv_nonneg (by positivity) (by norm_num)
        omega
    rw [start_idx]
    exact max_eq_left (by omega)
  · intro h
    rw [end_idx]
    exact min_eq_left (le_of_lt h)

/-- **C3** witness: at `t = 0` (before half a window of audio has played,
`sample_rate = 8`) the start clamps to 0; at `t = 100` s on a 3-sample
signal the end clamps to the signal length 3. -/
theorem window_bounds_clamped_witness :
    start_idx 0 8 = 0 ∧ end_idx [1,2,3] 100 8 = 3 := by
  constructor
  · exact (window_bounds_clamped [1,2,3] 0 8).2.2.1 (by norm_num [window_size])
  · refine (window_bounds_clamped [1,2,3] 100 8).2.2.2 ?_
    have hc : center_idx 100 8 = 800 := by
      rw [center_idx]
      exact truncQ_eq_of_nonneg _ 800 (by norm_num) (by norm_num) (by norm_num)
    rw [start_idx, hc]
    norm_num [window_size]

/-! ## C4 — output length bounds and the placeholder rule -/

/-- **C4** (counterexample): with `sample_rate = 2` the window is
`window_size = int(2 * 0.5) = 1` sample long, and at `t = 0` (in range for
the 1.5-second signal `[1,1,1]`) the windower returns the two-sample
placeholder, whose length 2 exceeds `window_size = 1` — so the output
length is not bounded by `window_size`. -/
theorem segment_length_counterex :
    ¬ ((audio_segment [1,1,1] 0 2).length ≤ window_size 2) := by
  have h : center_idx 0 2 = 0 := center_idx_zero 2
  have heq : audio_segment [1,1,1] 0 2 = zeroPair := by
    simp [audio_segment, raw_segment, end_idx, start_idx, window_size, h, zeroPair]
  rw [heq]
  decide

/-- **C4** (amended): for every signal, sample rate and timestamp the
windower returns between 2 and `max 2 window_size` samples, and whenever
the selected slice has fewer than 2 samples it substitutes the two-zero
placeholder instead of failing.  (The bound is `window_size` itself
whenever `window_size ≥ 2`, i.e. `sample_rate ≥ 4`.) -/
theorem segment_length_in_range (audio_data : List ℚ) (t : ℚ) (sample_rate : ℕ) :
    2 ≤ (audio_segment audio_data t sample_rate).length ∧
    (audio_segment audio_data t sample_rate).length ≤ max 2 (window_size sample_rate) ∧
    ((raw_segment audio_data t sample_rate).length < 2 →
      audio_segment audio_data t sample_rate = zeroPair) := by
  have hs0 : 0 ≤ start_idx t sample_rate := start_idx_nonneg t sample_rate
  have hesw := end_idx_le_start_add audio_data t sample_rate
  have hlen := raw_segment_length audio_data t sample_rate
  simp only [audio_segment]
  by_cases hle : end_idx audio_data t sample_rate ≤ start_idx t sample_rate
  · rw [if_pos hle, ite_self]
    refine ⟨by norm_num [zeroPair], by norm_num [zeroPair], fun _ => rfl⟩
  · rw [if_neg hle]
    by_cases h2 : (raw_segment audio_data t sample_rate).length < 2
    · rw [if_pos h2]
      refine ⟨by norm_num [zeroPair], by norm_num [zeroPair], fun _ => rfl⟩
    · rw [if_neg h2]
      refine ⟨by omega, ?_, fun hx => absurd hx h2⟩
      have hwle : (raw_segment audio_data t sample_rate).length ≤ window_size sample_rate := by
        rw [hlen]; omega
      exact le_trans hwle (le_max_right _ _)

/-- **C4** witness: the degenerate empty signal yields the placeholder (and
hence an output of length 2). -/
theorem segment_length_in_range_witness :
    audio_segment [] 0 44100 = zeroPair := by
  refine (segment_length_in_range [] 0 44100).2.2 ?_
  simp [raw_segment]

/-! ## C10 — the non-placeholder output is the untouched slice -/

/-- **C10**: whenever the selected slice has at least 2 samples, the
windower output is exactly `audio_data[start_idx:end_idx]` — element for
element the samples of the original signal, unmodified and in order. -/
theorem segment_is_slice (audio_data : List ℚ) (t : ℚ) (sample_rate : ℕ)
    (h : start_idx t sample_rate + 2 ≤ end_idx audio_data t sample_rate) :
    audio_segment audio_data t sample_rate = raw_segment audio_data t sample_rate ∧
    (audio_segment audio_data t sample_rate).length
      = (end_idx audio_data t sample_rate).toNat - (start_idx t sample_rate).toNat ∧
    ∀ i : ℕ,
      i < (end_idx audio_data t sample_rate).toNat - (start_idx t sample_rate).toNat →
      (audio_segment audio_data t sample_rate).getD i 0
        = audio_data.getD ((start_idx t sample_rate).toNat + i) 0 := by
  have hs0 : 0 ≤ start_idx t sample_rate := start_idx_nonneg t sample_rate
  have hlen := raw_segment_length audio_data t sample_rate
  have hgt : ¬ (end_idx audio_data t sample_rate ≤ start_idx t sample_rate) := by omega
  have h2 : ¬ ((raw_segment audio_data t sample_rate).length < 2) := by
    rw [hlen]; omega
  have hseg : audio_segment audio_data t sample_rate
      = raw_segment audio_data t sample_rate := by
    simp only [audio_segment]
    rw [if_neg hgt, if_neg h2]
  refine ⟨hseg, by rw [hseg, hlen], ?_⟩
  intro i hi
  rw [hseg, raw_segment, List.getD_eq_getElem?_getD, List.getD_eq_getElem?_getD,
    List.getElem?_take_of_lt hi, List.getElem?_drop]

/-- **C10** witness: at `t = 0`, `sample_rate = 8` the output is the slice
`[1,2,3,4][0:4]`, i.e. the whole signal unchanged. -/
theorem segment_is_slice_witness :
    audio_segment [1,2,3,4] 0 8 = raw_segment [1,2,3,4] 0 8 ∧
    audio_segment [1,2,3,4] 0 8 = [1,2,3,4] := by
  have hc : center_idx 0 8 = 0 := center_idx_zero 8
  have hb : start_idx 0 8 + 2 ≤ end_idx [1,2,3,4] 0 8 := by
    simp only [start_idx, end_idx, window_size, hc]
    decide
  refine ⟨(segment_is_slice [1,2,3,4] 0 8 hb).1, ?_⟩
  rw [(segment_is_slice [1,2,3,4] 0 8 hb).1]
  simp only [raw_segment, start_idx, end_idx, window_size, hc]
  decide

/-! ## C5 — frame dimensions -/

/-- **C5**: for every render context (style, color, resolution, signal) and
every timestamp, the produced frame — on the success path and on the
error-fallback path alike — has height `resolution`, width `resolution`,
3 channels and exactly `resolution * resolution * 3` bytes of pixel data;
since these depend only on the fixed context, all frames of one render
session have identical dimensions. -/
theorem frame_dims (ctx : RenderCtx) (t : ℚ) :
    (make_frame ctx t).1.height = ctx.resolution ∧
    (make_frame ctx t).1.width = ctx.resolution ∧
    (make_frame ctx t).1.channels = 3 ∧
    (make_frame ctx t).1.data.length = ctx.resolution * ctx.resolution * 3 := by
  simp only [make_frame]
  rcases hr : ctx.raster (plot_spec ctx.waveform_type ctx.waveform_color
      (audio_segment ctx.audio_data t ctx.sample_rate)) with e | img
  · simp [zeroImage]
  · simp [convertRGB, resize]

/-! ## C6 — per-frame error recovery -/

/-- **C6**: if rasterizing one frame raises, `make_frame` catches the
exception, logs the error line for that timestamp, and returns the
all-zero black frame of the correct `(resolution, resolution, 3)`
dimensions instead of propagating. -/
theorem frame_error_fallback (ctx : RenderCtx) (t : ℚ) (e : String)
    (h : ctx.raster (plot_spec ctx.waveform_type ctx.waveform_color
          (audio_segment ctx.audio_data t ctx.sample_rate)) = Except.error e) :
    make_frame ctx t = (zeroImage ctx.resolution, [errLine t e]) ∧
    (zeroImage ctx.resolution).height = ctx.resolution ∧
    (zeroImage ctx.resolution).width = ctx.resolution ∧
    (zeroImage ctx.resolution).channels = 3 ∧
    ∀ b ∈ (zeroImage ctx.resolution).data, b = 0 := by
  refine ⟨?_, rfl, rfl, rfl, ?_⟩
  · simp [make_frame, h]
  · intro b hb
    exact List.eq_of_mem_replicate hb

/-- **C6** witness: a concrete context whose rasterizer always raises
yields the logged zero frame. -/
theorem frame_error_fallback_witness :
    make_frame ⟨[1,1], 4, "mirror", 2, "#FF4500", fun _ => Except.error "boom"⟩ 0
      = (zeroImage 2, [errLine 0 "boom"]) :=
  (frame_error_fallback
    ⟨[1,1], 4, "mirror", 2, "#FF4500", fun _ => Except.error "boom"⟩ 0 "boom" rfl).1

/-! ## C7 — whole-run exit behavior -/

/-- **C7**: if no pipeline step raises, the command prints the completion
message and the elapsed time and returns success (`True`); if any
unrecoverable step (audio loading, decoding, image loading, final
encoding) raises, it prints the error and a stack trace and returns
failure (`False`). -/
theorem run_exit_behavior (env : RunEnv)
    (audio_file image_file waveform waveform_color output : String) (resolution : ℕ) :
    (first_error env = none →
      (create_waveform_video env audio_file image_file waveform waveform_color
        output resolution).1 = true ∧
      ("Video successfully created at " ++ output)
        ∈ (create_waveform_video env audio_file image_file waveform waveform_color
            output resolution).2 ∧
      ("Total processing time: " ++ toString env.elapsed ++ " seconds")
        ∈ (create_waveform_video env audio_file image_file waveform waveform_color
            output resolution).2) ∧
    (∀ e : String, first_error env = some e →
      (create_waveform_video env audio_file image_file waveform waveform_color
        output resolution).1 = false ∧
      ("Error creating video: " ++ e)
        ∈ (create_waveform_video env audio_file image_file waveform waveform_color
            output resolution).2 ∧
      "Traceback (most recent call last)"
        ∈ (create_waveform_video env audio_file image_file waveform waveform_color
            output resolution).2) := by
  rcases env with ⟨la, ad, ic, wv, el⟩
  rcases la with e1 | ysr <;> rcases ad with e2 | d <;> rcases ic with e3 | u <;>
    rcases wv with e4 | v <;>
    simp [create_waveform_video, first_error, fail_logs]

/-- **C7** witness: an all-successful run returns `True`, and a run whose
audio loading raises returns `False`. -/
theorem run_exit_behavior_witness :
    (create_waveform_video ⟨Except.ok ([], 4), Except.ok 1, Except.ok (), Except.ok (), 2⟩
      "a.mp3" "i.png" "mirror" "#FF4500" "out.mp4" 720).1 = true ∧
    (create_waveform_video ⟨Except.error "bad file", Except.ok 1, Except.ok (), Except.ok (), 2⟩
      "a.mp3" "i.png" "mirror" "#FF4500" "out.mp4" 720).1 = false := by
  constructor
  · exact ((run_exit_behavior
      ⟨Except.ok ([], 4), Except.ok 1, Except.ok (), Except.ok (), 2⟩
      "a.mp3" "i.png" "mirror" "#FF4500" "out.mp4" 720).1 rfl).1
  · exact ((run_exit_behavior
      ⟨Except.error "bad file", Except.ok 1, Except.ok (), Except.ok (), 2⟩
      "a.mp3" "i.png" "mirror" "#FF4500" "out.mp4" 720).2 "bad file" rfl).1

/-! ## C8 — fixed y-axis display range -/

/-- **C8**: for each of the three render styles (`simple` = filled
one-sided, `mirror` = mirrored-filled, `line` = line plot) and every
sample window and color, the y-axis display range is the constant
`[-0.8, 0.8]` — no auto-scaling on the actual amplitudes. -/
theorem ylim_fixed (waveform_type waveform_color : String) (seg : List ℚ)
    (h : waveform_type = "simple" ∨ waveform_type = "mirror" ∨ waveform_type = "line") :
    (plot_spec waveform_type waveform_color seg).ylim = some (-(4/5), 4/5) := by
  rcases h with h | h | h <;> subst h <;> simp [plot_spec]

/-- **C8** witness: the default `mirror` style on a concrete window. -/
theorem ylim_fixed_witness :
    (plot_spec "mirror" "#FF4500" [1, -1]).ylim = some (-(4/5), 4/5) :=
  ylim_fixed "mirror" "#FF4500" [1, -1] (Or.inr (Or.inl rfl))

/-! ## C9 — determinism and statelessness -/

/-- **C9**: the per-frame renderer is a pure function of the captured
context fields and the timestamp: two invocations with equal signal,
sample rate, style, resolution, color, rasterizer behavior and timestamp
return identical frames; and a sequential render session is exactly an
independent map of `make_frame` over the timestamps — no state carried
from frame to frame. -/
theorem frame_pure (c₁ c₂ : RenderCtx) (t₁ t₂ : ℚ)
    (hd : c₁.audio_data = c₂.audio_data) (hs : c₁.sample_rate = c₂.sample_rate)
    (hw : c₁.waveform_type = c₂.waveform_type) (hr : c₁.resolution = c₂.resolution)
    (hc : c₁.waveform_color = c₂.waveform_color)
    (hf : ∀ p : PlotSpec, c₁.raster p = c₂.raster p) (ht : t₁ = t₂) :
    make_frame c₁ t₁ = make_frame c₂ t₂ ∧
    ∀ ts : List ℚ, render_session c₁ ts = ts.map (make_frame c₁) := by
  obtain ⟨d1, s1, w1, r1, col1, f1⟩ := c₁
  obtain ⟨d2, s2, w2, r2, col2, f2⟩ := c₂
  dsimp only at hd hs hw hr hc hf
  subst hd hs hw hr hc ht
  have hff : f1 = f2 := funext hf
  subst hff
  refine ⟨rfl, ?_⟩
  intro ts
  induction ts with
  | nil => rfl
  | cons t ts ih => simp only [render_session, List.map_cons, ih]

/-- **C9** witness: two invocations of the same concrete context and
timestamp are identical. -/
theorem frame_pure_witness :
    make_frame ⟨[1], 4, "line", 2, "#FFFFFF", fun _ => Except.error "x"⟩ (1/2)
      = make_frame ⟨[1], 4, "line", 2, "#FFFFFF", fun _ => Except.error "x"⟩ (1/2) :=
  (frame_pure _ _ _ _ rfl rfl rfl rfl rfl (fun _ => rfl) rfl).1
